import Mathlib

/-!
Verification development for the whisper-stream repository: a shallow
embedding of the configuration factories in
`src/whisper_streaming/whisper_online.py`, of the byte-handling loop in
`whisper_fastapi_online_server.py`, and of the streaming transcription
engine described by the specification (its implementation module
`online_asr.py` is not part of the source tree).
-/

/-- The Whisper language codes, from `WHISPER_LANG_CODES` in
`whisper_online.py`. -/
def WHISPER_LANG_CODES : List String :=
  ["af", "am", "ar", "as", "az", "ba", "be", "bg", "bn", "bo", "br", "bs",
   "ca", "cs", "cy", "da", "de", "el", "en", "es", "et", "eu", "fa", "fi",
   "fo", "fr", "gl", "gu", "ha", "haw", "he", "hi", "hr", "ht", "hu", "hy",
   "id", "is", "it", "ja", "jw", "ka", "kk", "km", "kn", "ko", "la", "lb",
   "ln", "lo", "lt", "lv", "mg", "mi", "mk", "ml", "mn", "mr", "ms", "mt",
   "my", "ne", "nl", "nn", "no", "oc", "pa", "pl", "ps", "pt", "ro", "ru",
   "sa", "sd", "si", "sk", "sl", "sn", "so", "sq", "sr", "su", "sv", "sw",
   "ta", "te", "tg", "th", "tk", "tl", "tr", "tt", "uk", "ur", "uz", "vi",
   "yi", "yo", "zh"]

/-- Languages handed to `MosesSentenceSplitter` in `create_tokenizer`. -/
def mosesLangs : List String :=
  ["as", "bn", "ca", "cs", "de", "el", "en", "es", "et", "fi", "fr", "ga",
   "gu", "hi", "hu", "is", "it", "kn", "lt", "lv", "ml", "mni", "mr", "nl",
   "or", "pa", "pl", "pt", "ro", "ru", "sk", "sl", "sv", "ta", "te", "yue",
   "zh"]

/-- Languages that are in Whisper but not in wtpsplit; `create_tokenizer`
replaces them with the `None` lang-code option before building a `WtPtok`. -/
def wtpNoneLangs : List String :=
  ["as", "ba", "bo", "br", "bs", "fo", "haw", "hr", "ht", "jw", "lb", "ln",
   "lo", "mi", "nn", "oc", "sa", "sd", "sn", "so", "su", "sw", "tk", "tl",
   "tt"]

/-- The sentence-splitter object returned by `create_tokenizer`: each
constructor mirrors one of the three classes built in the source
(`UkrainianTokenizer`, `MosesSentenceSplitter`, `WtPtok`); every one of
them provides the `split` capability. -/
inductive Tokenizer where
  | ukrainian : Tokenizer
  | moses (lan : String) : Tokenizer
  | wtp (lanCode : Option String) : Tokenizer
deriving DecidableEq, Repr

/-- Embedding of `create_tokenizer(lan)` from `whisper_online.py`: the
`assert lan in WHISPER_LANG_CODES` becomes the error branch, and the
three construction paths follow the source in order. -/
def create_tokenizer (lan : String) : Except String Tokenizer :=
  if lan ∈ WHISPER_LANG_CODES then
    if lan = "uk" then .ok .ukrainian
    else if lan ∈ mosesLangs then .ok (.moses lan)
    else if lan ∈ wtpNoneLangs then .ok (.wtp none)
    else .ok (.wtp (some lan))
  else .error ("language must be a supported Whisper lang code")

/-- The parsed configuration surface relevant to the factories, from
`add_shared_args` in `whisper_online.py`. -/
structure Args where
  backend : String
  lan : String
  task : String
  vad : Bool
  vac : Bool
  min_chunk_size : ℚ
  buffer_trimming : String
  buffer_trimming_sec : ℚ
deriving DecidableEq, Repr

/-- The observable configuration of the ASR backend object built by
`backend_factory`: which backend class, the language passed, whether
`use_vad()` and `set_translate_task()` were invoked. -/
structure ASRState where
  backend : String
  lan : String
  vadOn : Bool
  translateTask : Bool
deriving DecidableEq, Repr

/-- The target language for the tokenizer computed inside
`backend_factory`: Whisper translates into English, otherwise it
transcribes in the configured source language. -/
def tgt_language (args : Args) : String :=
  if args.task = "translate" then "en" else args.lan

/-- Embedding of `backend_factory(args)` from `whisper_online.py`:
builds the ASR configuration, applies `use_vad` and
`set_translate_task` as the flags demand, and builds the sentence
tokenizer exactly in sentence-trimming mode. -/
def backend_factory (args : Args) : Except String (ASRState × Option Tokenizer) :=
  let asr : ASRState :=
    { backend := args.backend, lan := args.lan
      vadOn := false, translateTask := false }
  let asr := if args.vad then { asr with vadOn := true } else asr
  let asr :=
    if args.task = "translate" then { asr with translateTask := true } else asr
  if args.buffer_trimming = "sentence" then
    match create_tokenizer (tgt_language args) with
    | .ok tok => .ok (asr, some tok)
    | .error e => .error e
  else .ok (asr, none)

/-- The session object built by `online_factory`: either the VAC
variant or the plain streaming processor, with the constructor
arguments the source passes. -/
inductive OnlineProcessor where
  | vacProcessor (minChunkSize : ℚ) (asr : ASRState) (tokenizer : Option Tokenizer)
      (bufferTrimming : String × ℚ) : OnlineProcessor
  | plainProcessor (asr : ASRState) (tokenizer : Option Tokenizer)
      (bufferTrimming : String × ℚ) : OnlineProcessor
deriving DecidableEq, Repr

/-- Embedding of `online_factory(args, asr, tokenizer)` from
`whisper_online.py`. -/
def online_factory (args : Args) (asr : ASRState) (tokenizer : Option Tokenizer) :
    OnlineProcessor :=
  if args.vac then
    .vacProcessor args.min_chunk_size asr tokenizer
      (args.buffer_trimming, args.buffer_trimming_sec)
  else
    .plainProcessor asr tokenizer
      (args.buffer_trimming, args.buffer_trimming_sec)

/-- Embedding of `asr_factory(args)` from `whisper_online.py`: the
backend factory followed by the online factory; an error in the former
means no session object is ever created. -/
def asr_factory (args : Args) : Except String (ASRState × OnlineProcessor) :=
  match backend_factory args with
  | .error e => .error e
  | .ok (asr, tokenizer) => .ok (asr, online_factory args asr tokenizer)

/-- C2: `backend_factory` creates a sentence tokenizer if and only if
the buffer-trimming mode is sentence; in segment mode the tokenizer
handed on is `none`. -/
theorem backend_factory_tokenizer_iff_sentence (args : Args) (st : ASRState)
    (tok : Option Tokenizer) (h : backend_factory args = .ok (st, tok)) :
    (tok.isSome ↔ args.buffer_trimming = "sentence") ∧
    (args.buffer_trimming = "segment" → tok = none) := by
  unfold backend_factory at h
  by_cases hs : args.buffer_trimming = "sentence"
  · simp only [hs, if_pos] at h
    constructor
    · constructor
      · intro _; exact hs
      · intro _
        cases hc : create_tokenizer (tgt_language args) with
        | ok t => rw [hc] at h; simp at h; simp [← h.2]
        | error e => rw [hc] at h; simp at h
    · intro hseg; rw [hs] at hseg; exact absurd hseg (by decide)
  · simp only [hs, if_neg, if_false] at h
    simp at h
    refine ⟨?_, fun _ => h.2.symm⟩
    simp [← h.2, hs]

/-- C2 witness: a concrete sentence-mode configuration yields a
tokenizer, a concrete segment-mode configuration yields none. -/
theorem backend_factory_tokenizer_iff_sentence_witness :
    ((some (Tokenizer.moses ("en")) : Option Tokenizer).isSome ↔
      ("sentence" : String) = "sentence") ∧
    (("sentence" : String) = "segment" →
      (some (Tokenizer.moses ("en")) : Option Tokenizer) = none) := by
  have h := backend_factory_tokenizer_iff_sentence
    { backend := "faster-whisper", lan := "en", task := "transcribe",
      vad := false, vac := false, min_chunk_size := 1,
      buffer_trimming := "sentence", buffer_trimming_sec := 15 }
    { backend := "faster-whisper", lan := "en", vadOn := false,
      translateTask := false }
    (some (Tokenizer.moses ("en"))) rfl
  exact h

/-- C3: `create_tokenizer` fails exactly on the languages outside
`WHISPER_LANG_CODES`, returns a splitter object on every supported
code, and therefore a sentence-mode configuration whose target
language is unsupported fails already in `backend_factory`, before
`asr_factory` can build any session object. -/
theorem create_tokenizer_assert_iff (lan : String) (args : Args) :
    ((∃ e, create_tokenizer lan = .error e) ↔ lan ∉ WHISPER_LANG_CODES) ∧
    (lan ∈ WHISPER_LANG_CODES → ∃ t, create_tokenizer lan = .ok t) ∧
    (args.buffer_trimming = "sentence" →
      tgt_language args ∉ WHISPER_LANG_CODES →
      (∃ e, backend_factory args = .error e) ∧
      (∃ e, asr_factory args = .error e)) := by
  have hok : lan ∈ WHISPER_LANG_CODES → ∃ t, create_tokenizer lan = .ok t := by
    intro hmem
    unfold create_tokenizer
    rw [if_pos hmem]
    split
    · exact ⟨_, rfl⟩
    · split
      · exact ⟨_, rfl⟩
      · split
        · exact ⟨_, rfl⟩
        · exact ⟨_, rfl⟩
  refine ⟨?_, hok, ?_⟩
  · constructor
    · rintro ⟨e, he⟩ hmem
      obtain ⟨t, ht⟩ := hok hmem
      rw [ht] at he
      exact Except.noConfusion he
    · intro hmem
      unfold create_tokenizer
      rw [if_neg hmem]
      exact ⟨_, rfl⟩
  · intro hs hmem
    have herr : ∃ e, create_tokenizer (tgt_language args) = .error e := by
      unfold create_tokenizer
      rw [if_neg hmem]
      exact ⟨_, rfl⟩
    obtain ⟨e, he⟩ := herr
    have hbf : backend_factory args = .error e := by
      unfold backend_factory
      rw [if_pos hs, he]
    refine ⟨⟨e, hbf⟩, ⟨e, ?_⟩⟩
    unfold asr_factory
    rw [hbf]

/-- C3 witness: the undetected language marker (auto) is unsupported,
so a concrete sentence-mode configuration with it fails in both
factories, while a supported code (en) yields a tokenizer. -/
theorem create_tokenizer_assert_iff_witness :
    (∃ e, create_tokenizer ("auto") = .error e) ∧
    (∃ t, create_tokenizer ("en") = .ok t) ∧
    (∃ e, backend_factory
      { backend := "faster-whisper", lan := "auto", task := "transcribe",
        vad := false, vac := false, min_chunk_size := 1,
        buffer_trimming := "sentence", buffer_trimming_sec := 15 } = .error e) ∧
    (∃ e, asr_factory
      { backend := "faster-whisper", lan := "auto", task := "transcribe",
        vad := false, vac := false, min_chunk_size := 1,
        buffer_trimming := "sentence", buffer_trimming_sec := 15 } = .error e) := by
  have h1 := create_tokenizer_assert_iff ("auto")
    { backend := "faster-whisper", lan := "auto", task := "transcribe",
      vad := false, vac := false, min_chunk_size := 1,
      buffer_trimming := "sentence", buffer_trimming_sec := 15 }
  have h2 := create_tokenizer_assert_iff ("en")
    { backend := "faster-whisper", lan := "auto", task := "transcribe",
      vad := false, vac := false, min_chunk_size := 1,
      buffer_trimming := "sentence", buffer_trimming_sec := 15 }
  have hauto : ("auto" : String) ∉ WHISPER_LANG_CODES := by decide
  have hmemEn : ("en" : String) ∈ WHISPER_LANG_CODES := by decide
  have htgt : tgt_language
      { backend := "faster-whisper", lan := "auto", task := "transcribe",
        vad := false, vac := false, min_chunk_size := 1,
        buffer_trimming := "sentence", buffer_trimming_sec := 15 } ∉
      WHISPER_LANG_CODES := by decide
  obtain ⟨hiff, _, hfact⟩ := h1
  obtain ⟨hbf, haf⟩ := hfact rfl htgt
  exact ⟨hiff.mpr hauto, h2.2.1 hmemEn, hbf, haf⟩

/-- C6: `online_factory` builds the VAC-wrapped processor, passing the
configured minimum chunk size, exactly when the vac flag is set, and
the plain processor otherwise; both receive the configured trimming
pair unchanged. -/
theorem online_factory_vac_selection (args : Args) (asr : ASRState)
    (tokenizer : Option Tokenizer) :
    (args.vac = true →
      online_factory args asr tokenizer =
        .vacProcessor args.min_chunk_size asr tokenizer
          (args.buffer_trimming, args.buffer_trimming_sec)) ∧
    (args.vac = false →
      online_factory args asr tokenizer =
        .plainProcessor asr tokenizer
          (args.buffer_trimming, args.buffer_trimming_sec)) := by
  constructor
  · intro hv; simp [online_factory, hv]
  · intro hv; simp [online_factory, hv]

/-- C6 witness: concrete configurations on both sides of the vac
flag. -/
theorem online_factory_vac_selection_witness :
    (online_factory
      { backend := "faster-whisper", lan := "en", task := "transcribe",
        vad := false, vac := true, min_chunk_size := 1,
        buffer_trimming := "segment", buffer_trimming_sec := 15 }
      { backend := "faster-whisper", lan := "en", vadOn := false,
        translateTask := false } none =
      .vacProcessor 1
        { backend := "faster-whisper", lan := "en", vadOn := false,
          translateTask := false } none (("segment"), 15)) ∧
    (online_factory
      { backend := "faster-whisper", lan := "en", task := "transcribe",
        vad := false, vac := false, min_chunk_size := 1,
        buffer_trimming := "segment", buffer_trimming_sec := 15 }
      { backend := "faster-whisper", lan := "en", vadOn := false,
        translateTask := false } none =
      .plainProcessor
        { backend := "faster-whisper", lan := "en", vadOn := false,
          translateTask := false } none (("segment"), 15)) := by
  constructor
  · exact (online_factory_vac_selection
      { backend := "faster-whisper", lan := "en", task := "transcribe",
        vad := false, vac := true, min_chunk_size := 1,
        buffer_trimming := "segment", buffer_trimming_sec := 15 }
      { backend := "faster-whisper", lan := "en", vadOn := false,
        translateTask := false } none).1 rfl
  · exact (online_factory_vac_selection
      { backend := "faster-whisper", lan := "en", task := "transcribe",
        vad := false, vac := false, min_chunk_size := 1,
        buffer_trimming := "segment", buffer_trimming_sec := 15 }
      { backend := "faster-whisper", lan := "en", vadOn := false,
        translateTask := false } none).2 rfl

/-- The ASR configuration produced by `backend_factory` before the
tokenizer step: vad applied when flagged, translate task applied when
the task is translate. -/
def bfASR (args : Args) : ASRState :=
  { backend := args.backend, lan := args.lan, vadOn := args.vad,
    translateTask := decide (args.task = "translate") }

/-- Closed-form description of `backend_factory`. -/
theorem backend_factory_eq (args : Args) :
    backend_factory args =
      if args.buffer_trimming = "sentence" then
        match create_tokenizer (tgt_language args) with
        | .ok tok => .ok (bfASR args, some tok)
        | .error e => .error e
      else .ok (bfASR args, none) := by
  unfold backend_factory bfASR
  by_cases hv : args.vad <;> by_cases ht : args.task = "translate" <;>
    simp [hv, ht]

/-- C8: with the translate task, `backend_factory` marks the backend
for translation and, in sentence mode, builds the tokenizer for
English regardless of the configured source language; with the
transcribe task the backend is not marked and the tokenizer is built
for the configured source language. -/
theorem backend_factory_translate_vs_transcribe (args : Args) (st : ASRState)
    (tok : Option Tokenizer) (h : backend_factory args = .ok (st, tok)) :
    (args.task = "translate" →
      st.translateTask = true ∧
      (args.buffer_trimming = "sentence" →
        ∃ t, create_tokenizer ("en") = .ok t ∧ tok = some t)) ∧
    (args.task = "transcribe" →
      st.translateTask = false ∧
      (args.buffer_trimming = "sentence" →
        ∃ t, create_tokenizer args.lan = .ok t ∧ tok = some t)) := by
  rw [backend_factory_eq] at h
  constructor
  · intro ht
    have htgt : tgt_language args = "en" := by simp [tgt_language, ht]
    by_cases hs : args.buffer_trimming = "sentence"
    · rw [if_pos hs, htgt] at h
      cases hc : create_tokenizer ("en") with
      | ok t =>
        rw [hc] at h
        simp only [Except.ok.injEq, Prod.mk.injEq] at h
        refine ⟨?_, fun _ => ⟨t, rfl, h.2.symm⟩⟩
        rw [← h.1]
        simp [bfASR, ht]
      | error e => rw [hc] at h; exact Except.noConfusion h
    · rw [if_neg hs] at h
      simp only [Except.ok.injEq, Prod.mk.injEq] at h
      refine ⟨?_, fun hs2 => absurd hs2 hs⟩
      rw [← h.1]
      simp [bfASR, ht]
  · intro ht
    have htr : ¬ args.task = "translate" := by rw [ht]; decide
    have htgt : tgt_language args = args.lan := by simp [tgt_language, htr]
    by_cases hs : args.buffer_trimming = "sentence"
    · rw [if_pos hs, htgt] at h
      cases hc : create_tokenizer args.lan with
      | ok t =>
        rw [hc] at h
        simp only [Except.ok.injEq, Prod.mk.injEq] at h
        refine ⟨?_, fun _ => ⟨t, rfl, h.2.symm⟩⟩
        rw [← h.1]
        simp [bfASR, htr]
      | error e => rw [hc] at h; exact Except.noConfusion h
    · rw [if_neg hs] at h
      simp only [Except.ok.injEq, Prod.mk.injEq] at h
      refine ⟨?_, fun hs2 => absurd hs2 hs⟩
      rw [← h.1]
      simp [bfASR, htr]

/-- C8 witness: a concrete translate-task sentence-mode configuration
with source language German gets the English tokenizer and the
translate mark; the transcribe twin gets the German tokenizer and no
mark. -/
theorem backend_factory_translate_vs_transcribe_witness :
    (("translate" : String) = "translate" →
      (true : Bool) = true ∧
      (("sentence" : String) = "sentence" →
        ∃ t, create_tokenizer ("en") = .ok t ∧
          (some (Tokenizer.moses ("en")) : Option Tokenizer) = some t)) ∧
    (("translate" : String) = "transcribe" →
      (true : Bool) = false ∧
      (("sentence" : String) = "sentence" →
        ∃ t, create_tokenizer ("de") = .ok t ∧
          (some (Tokenizer.moses ("en")) : Option Tokenizer) = some t)) := by
  have h := backend_factory_translate_vs_transcribe
    { backend := "faster-whisper", lan := "de", task := "translate",
      vad := false, vac := false, min_chunk_size := 1,
      buffer_trimming := "sentence", buffer_trimming_sec := 15 }
    { backend := "faster-whisper", lan := "de", vadOn := false,
      translateTask := true }
    (some (Tokenizer.moses ("en"))) rfl
  exact h

/-- The audio sampling rate fixed by the server
(`SAMPLE_RATE = 16000`). -/
def SAMPLE_RATE : Nat := 16000

/-- Bytes per s16le sample (`BYTES_PER_SAMPLE = 2`). -/
def BYTES_PER_SAMPLE : Nat := 2

/-- The cap on bytes handed to the model per iteration
(`MAX_BYTES_PER_SEC = 32000 * 5`). -/
def MAX_BYTES_PER_SEC : Nat := 32000 * 5

/-- Truncating conversion of a float to an integer, as the Python
builtin `int()` rounds toward zero. -/
def pyInt (q : ℚ) : Int :=
  if q < 0 then q.ceil else q.floor

/-- `SAMPLES_PER_SEC = SAMPLE_RATE * int(args.min_chunk_size)` from the
server module. -/
def SAMPLES_PER_SEC (minChunkSize : ℚ) : Int :=
  SAMPLE_RATE * pyInt minChunkSize

/-- `BYTES_PER_SEC = SAMPLES_PER_SEC * BYTES_PER_SAMPLE` from the
server module. -/
def BYTES_PER_SEC (minChunkSize : ℚ) : Int :=
  SAMPLES_PER_SEC minChunkSize * BYTES_PER_SAMPLE

/-- The byte threshold the reader loop compares buffer length against,
as a natural number. -/
def serverByteThreshold (minChunkSize : ℚ) : Nat :=
  (BYTES_PER_SEC minChunkSize).toNat

/-- Decoding of one little-endian signed 16-bit quantity from two
bytes, as `np.frombuffer(..., dtype=np.int16)` reads the FFmpeg
output. -/
def decodeS16LE (lo hi : Nat) : Int :=
  if lo + 256 * hi < 32768 then (lo + 256 * hi : Int)
  else (lo + 256 * hi : Int) - 65536

/-- The conversion applied by the server to each decoded int16 value:
`.astype(np.float32) / 32768.0`. -/
def s16ToFloat (v : Int) : ℚ := (v : ℚ) / 32768

/-- The full byte-stream-to-sample conversion of the reader loop:
consecutive byte pairs become scaled samples. -/
def pcmBytesToSamples : List Nat → List ℚ
  | [] => []
  | [_] => []
  | lo :: hi :: rest => s16ToFloat (decodeS16LE lo hi) :: pcmBytesToSamples rest

/-- One iteration of the reader loop's buffer handling in
`ffmpeg_stdout_reader`: the chunk is appended, and when the buffer
has reached `BYTES_PER_SEC` bytes its first `MAX_BYTES_PER_SEC` bytes
are forwarded and the rest retained. Returns (new buffer, forwarded
bytes). -/
def readerStep (bytesPerSec : Nat) (buf chunk : List Nat) : List Nat × List Nat :=
  let b := buf ++ chunk
  if bytesPerSec ≤ b.length then
    (b.drop MAX_BYTES_PER_SEC, b.take MAX_BYTES_PER_SEC)
  else (b, [])

/-- The reader loop run over a sequence of chunks read from FFmpeg
stdout, collecting all forwarded bytes in order. -/
def readerRun (bytesPerSec : Nat) (buf : List Nat) :
    List (List Nat) → List Nat × List Nat
  | [] => (buf, [])
  | c :: cs =>
    let p := readerStep bytesPerSec buf c
    let q := readerRun bytesPerSec p.1 cs
    (q.1, p.2 ++ q.2)

/-- C7: every sample produced from the FFmpeg byte stream is a signed
16-bit value divided by 32768, hence lies in the interval from -1 to
32767/32768 (a subset of the unit interval). -/
theorem pcm_samples_in_unit_interval (bytes : List Nat)
    (hb : ∀ b ∈ bytes, b < 256) :
    ∀ s ∈ pcmBytesToSamples bytes, -1 ≤ s ∧ s ≤ 32767 / 32768 := by
  have hdec : ∀ lo hi : Nat, lo < 256 → hi < 256 →
      -32768 ≤ decodeS16LE lo hi ∧ decodeS16LE lo hi ≤ 32767 := by
    intro lo hi hlo hhi
    unfold decodeS16LE
    split
    · constructor <;> omega
    · constructor <;> omega
  have hfloat : ∀ v : Int, -32768 ≤ v → v ≤ 32767 →
      -1 ≤ s16ToFloat v ∧ s16ToFloat v ≤ 32767 / 32768 := by
    intro v h1 h2
    unfold s16ToFloat
    constructor
    · rw [show (-1 : ℚ) = -32768 / 32768 by norm_num]
      apply div_le_div_of_nonneg_right _ (by norm_num)
      exact_mod_cast h1
    · apply div_le_div_of_nonneg_right _ (by norm_num)
      exact_mod_cast h2
  induction bytes using pcmBytesToSamples.induct with
  | case1 =>
    intro s hs
    rw [pcmBytesToSamples] at hs
    simp at hs
  | case2 x =>
    intro s hs
    rw [pcmBytesToSamples] at hs
    simp at hs
  | case3 lo hi rest ih =>
    intro s hs
    rw [pcmBytesToSamples] at hs
    rcases List.mem_cons.mp hs with hhead | htail
    · subst hhead
      have hlo : lo < 256 := hb lo (by simp)
      have hhi : hi < 256 := hb hi (by simp)
      obtain ⟨g1, g2⟩ := hdec lo hi hlo hhi
      exact hfloat _ g1 g2
    · exact ih (fun b hbm => hb b (by simp [hbm])) s htail

/-- C7 witness: the sample decoded from the concrete byte pair
(0, 128), which is the most negative int16 value, obeys the bounds. -/
theorem pcm_samples_in_unit_interval_witness :
    (-1 : ℚ) ≤ s16ToFloat (decodeS16LE 0 128) ∧
    s16ToFloat (decodeS16LE 0 128) ≤ 32767 / 32768 :=
  pcm_samples_in_unit_interval [0, 128] (by decide)
    (s16ToFloat (decodeS16LE 0 128)) (by simp [pcmBytesToSamples])

/-- C9: in each reader-loop iteration the chunk read from FFmpeg is
appended to the buffer; once the threshold is reached exactly the
first `MAX_BYTES_PER_SEC` bytes (the whole buffer when shorter) are
forwarded and the remainder retained, below the threshold the buffer
changes only by the appended chunk; consequently over any run the
forwarded bytes followed by the final buffer are exactly the initial
buffer followed by every byte read, in order — nothing lost or
duplicated. -/
theorem reader_loop_byte_conservation (bytesPerSec : Nat)
    (buf chunk : List Nat) (chunks : List (List Nat)) :
    (bytesPerSec ≤ (buf ++ chunk).length →
      readerStep bytesPerSec buf chunk =
        ((buf ++ chunk).drop MAX_BYTES_PER_SEC,
         (buf ++ chunk).take MAX_BYTES_PER_SEC)) ∧
    (¬ bytesPerSec ≤ (buf ++ chunk).length →
      readerStep bytesPerSec buf chunk = (buf ++ chunk, [])) ∧
    (readerRun bytesPerSec buf chunks).2 ++ (readerRun bytesPerSec buf chunks).1 =
      buf ++ chunks.flatten := by
  refine ⟨?_, ?_, ?_⟩
  · intro h
    simp only [readerStep]
    rw [if_pos h]
  · intro h
    simp only [readerStep]
    rw [if_neg h]
  · have hstep : ∀ b c : List Nat,
        (readerStep bytesPerSec b c).2 ++ (readerStep bytesPerSec b c).1 =
          b ++ c := by
      intro b c
      simp only [readerStep]
      split
      · simp [List.take_append_drop]
      · simp
    clear chunk
    induction chunks generalizing buf with
    | nil => simp [readerRun]
    | cons c cs ih =>
      rw [readerRun]
      simp only [List.flatten_cons]
      rw [List.append_assoc, ih ((readerStep bytesPerSec buf c).1)]
      rw [← List.append_assoc, hstep buf c, List.append_assoc]

/-- C9 witness: a concrete reader-loop iteration at the threshold
forwards the whole buffer, and a concrete run conserves the bytes. -/
theorem reader_loop_byte_conservation_witness :
    (4 ≤ (([1, 2] ++ [3, 4] : List Nat)).length →
      readerStep 4 [1, 2] [3, 4] =
        ((([1, 2] ++ [3, 4] : List Nat)).drop MAX_BYTES_PER_SEC,
         (([1, 2] ++ [3, 4] : List Nat)).take MAX_BYTES_PER_SEC)) ∧
    (¬ 4 ≤ (([1, 2] ++ [3, 4] : List Nat)).length →
      readerStep 4 [1, 2] [3, 4] = ([1, 2] ++ [3, 4], [])) ∧
    (readerRun 4 [1, 2] [[3, 4], [5]]).2 ++ (readerRun 4 [1, 2] [[3, 4], [5]]).1 =
      [1, 2] ++ ([[3, 4], [5]] : List (List Nat)).flatten :=
  reader_loop_byte_conservation 4 [1, 2] [3, 4] [[3, 4], [5]]

/-- C10: the server truncates the configured minimum chunk size to an
integer before computing its byte threshold, so every fractional
configuration strictly between zero and one second yields a threshold
of zero bytes and the processing branch fires on every nonempty
read. -/
theorem server_threshold_truncates_fractional_chunk (q : ℚ)
    (h0 : 0 < q) (h1 : q < 1) :
    BYTES_PER_SEC q = 0 ∧
    serverByteThreshold q = 0 ∧
    (∀ buf chunk : List Nat, chunk ≠ [] →
      serverByteThreshold q ≤ (buf ++ chunk).length ∧
      (readerStep (serverByteThreshold q) buf chunk).2 ≠ []) := by
  have hfloor : q.floor = 0 := by
    have : (⌊q⌋ : Int) = 0 := by
      rw [Int.floor_eq_zero_iff]
      exact ⟨le_of_lt h0, h1⟩
    rwa [Rat.floor_def, ← Rat.floor_def'] at this
  have hpy : pyInt q = 0 := by
    unfold pyInt
    rw [if_neg (not_lt.mpr (le_of_lt h0))]
    exact hfloor
  have hbps : BYTES_PER_SEC q = 0 := by
    unfold BYTES_PER_SEC SAMPLES_PER_SEC
    rw [hpy]
    ring
  have hthr : serverByteThreshold q = 0 := by
    unfold serverByteThreshold
    rw [hbps]
    rfl
  refine ⟨hbps, hthr, ?_⟩
  intro buf chunk hne
  constructor
  · rw [hthr]; exact Nat.zero_le _
  · unfold readerStep
    rw [hthr]
    simp only [Nat.zero_le, if_true]
    simp only [ne_eq, List.take_eq_nil_iff]
    push_neg
    refine ⟨by norm_num [MAX_BYTES_PER_SEC], by simp [hne]⟩

/-- C10 witness: the concrete half-second configuration yields a zero
threshold and fires on a one-byte read. -/
theorem server_threshold_truncates_fractional_chunk_witness :
    BYTES_PER_SEC (1 / 2) = 0 ∧
    serverByteThreshold (1 / 2) = 0 ∧
    (∀ buf chunk : List Nat, chunk ≠ [] →
      serverByteThreshold (1 / 2) ≤ (buf ++ chunk).length ∧
      (readerStep (serverByteThreshold (1 / 2)) buf chunk).2 ≠ []) :=
  server_threshold_truncates_fractional_chunk (1 / 2) (by norm_num) (by norm_num)

/-- Modelled from the spec: the `TimestampedWord` of the data model
(spec section 3); the engine module `online_asr.py` that manipulates
these is not part of the source tree. -/
structure Word where
  start : ℚ
  stop : ℚ
  text : String
deriving DecidableEq, Repr

/-- Modelled from the spec: the `Transcription` record returned by
`process_iter` (spec section 6), with null start and stop and empty
text when nothing new was confirmed. -/
structure Transcription where
  start : Option ℚ
  stop : Option ℚ
  text : String
deriving DecidableEq, Repr

/-- The empty transcription result. -/
def emptyTranscription : Transcription :=
  { start := none, stop := none, text := "" }

/-- Modelled from the spec: the agreed run of HypothesisBuffer's
local-agreement matching (spec section 4.1, absent module
`online_asr.py`): walk the retained tentative buffer and the new word
list in parallel, keeping the new words up to the first disagreement
in text. -/
def agreedRun : List Word → List Word → List Word
  | o :: os, n :: ns => if o.text = n.text then n :: agreedRun os ns else []
  | _, _ => []

/-- Modelled from the spec: `HypothesisBuffer.update` (spec section
4.1, absent module `online_asr.py`): the agreed run is promoted to
confirmed output and the remaining new words become the new tentative
buffer. With an empty previous buffer nothing is confirmed. -/
def hyp_update (buf newWords : List Word) : List Word × List Word :=
  let confirmed := agreedRun buf newWords
  (confirmed, newWords.drop confirmed.length)

/-- Modelled from the spec: the state owned by
StreamingTranscriptionEngine (spec sections 3 and 4.2, absent module
`online_asr.py`): the audio buffer window, its cumulative time
offset, the tentative hypothesis buffer, and the committed
transcript. -/
structure EngineState where
  audio : List ℚ
  timeOffset : ℚ
  hypBuf : List Word
  committed : List Word
deriving DecidableEq, Repr

/-- Modelled from the spec: `insert_audio_chunk(samples)` appends the
samples to the buffer window and triggers no decode (spec section
4.2). -/
def insert_audio_chunk (st : EngineState) (chunk : List ℚ) : EngineState :=
  { st with audio := st.audio ++ chunk }

/-- A word shifted by the buffer window's absolute time offset. -/
def shiftWord (off : ℚ) (w : Word) : Word :=
  { w with start := w.start + off, stop := w.stop + off }

/-- The text of a word sequence, words separated by spaces. -/
def joinWords (ws : List Word) : String :=
  String.intercalate (" ") (ws.map (fun w => w.text))

/-- The transcription covering a newly confirmed word span: empty when
no word was confirmed. -/
def transcriptionOf (ws : List Word) : Transcription :=
  match ws.head?, ws.getLast? with
  | some a, some b => { start := some a.start, stop := some b.stop, text := joinWords ws }
  | _, _ => emptyTranscription

/-- Modelled from the spec: `process_iter()` of
StreamingTranscriptionEngine (spec section 4.2, absent module
`online_asr.py`): below the minimum chunk size return an empty
result with no decode; otherwise decode the whole buffer with the
ASR backend, surfacing a backend failure as the error of this call
with the state untouched; feed the words to the hypothesis buffer,
append the newly confirmed words (with the absolute time offset
applied) to the committed transcript, and apply the advisory
trimming policy by cutting the front of the audio buffer and
advancing the time offset by the cut duration. -/
def process_iter (asr : List ℚ → Except String (List Word))
    (trimPolicy : EngineState → Nat) (minChunkSize : ℚ) (st : EngineState) :
    Except String (EngineState × Transcription) :=
  if ((st.audio.length : ℚ) / (SAMPLE_RATE : ℚ)) < minChunkSize then
    .ok (st, emptyTranscription)
  else
    match asr st.audio with
    | .error e => .error e
    | .ok words =>
      let p := hyp_update st.hypBuf words
      let newlyCommitted := p.1.map (shiftWord st.timeOffset)
      let st1 : EngineState :=
        { st with hypBuf := p.2, committed := st.committed ++ newlyCommitted }
      let cut := min (trimPolicy st1) st1.audio.length
      let st2 : EngineState :=
        { st1 with audio := st1.audio.drop cut,
                   timeOffset := st1.timeOffset + (cut : ℚ) / (SAMPLE_RATE : ℚ) }
      .ok (st2, transcriptionOf newlyCommitted)

/-- Modelled from the spec: one caller interaction with a session —
either handing audio to `insert_audio_chunk` or invoking
`process_iter` (spec section 5's driving pattern). -/
inductive SessionEvent where
  | insert (chunk : List ℚ) : SessionEvent
  | iter : SessionEvent

/-- Modelled from the spec: the effect of one session event on the
engine state, together with the non-empty transcription text the call
returned, if any; a backend failure surfaces as an error for that
call only and leaves the state as it was. -/
def sessionStep (asr : List ℚ → Except String (List Word))
    (trimPolicy : EngineState → Nat) (minChunkSize : ℚ) (st : EngineState) :
    SessionEvent → EngineState × List String
  | .insert chunk => (insert_audio_chunk st chunk, [])
  | .iter =>
    match process_iter asr trimPolicy minChunkSize st with
    | .error _ => (st, [])
    | .ok (st2, t) => (st2, if t.text = "" then [] else [t.text])

/-- Modelled from the spec: a whole session — the engine state driven
through a sequence of events, collecting every non-empty returned
transcription text in call order. -/
def sessionRun (asr : List ℚ → Except String (List Word))
    (trimPolicy : EngineState → Nat) (minChunkSize : ℚ) (st : EngineState) :
    List SessionEvent → EngineState × List String
  | [] => (st, [])
  | e :: es =>
    let p := sessionStep asr trimPolicy minChunkSize st e
    let q := sessionRun asr trimPolicy minChunkSize p.1 es
    (q.1, p.2 ++ q.2)

/-- The concatenation, in call order, of returned transcription
texts. -/
def concatTexts (outs : List String) : String :=
  outs.foldr (fun a b => a ++ b) ""

theorem concatTexts_append (l1 l2 : List String) :
    concatTexts (l1 ++ l2) = concatTexts l1 ++ concatTexts l2 := by
  induction l1 with
  | nil => simp [concatTexts, String.empty_append]
  | cons a l ih =>
    simp only [concatTexts, List.cons_append, List.foldr_cons] at *
    rw [ih, String.append_assoc]

theorem sessionRun_append (asr : List ℚ → Except String (List Word))
    (trimPolicy : EngineState → Nat) (minChunkSize : ℚ) (st : EngineState)
    (es1 es2 : List SessionEvent) :
    sessionRun asr trimPolicy minChunkSize st (es1 ++ es2) =
      ((sessionRun asr trimPolicy minChunkSize
          (sessionRun asr trimPolicy minChunkSize st es1).1 es2).1,
       (sessionRun asr trimPolicy minChunkSize st es1).2 ++
         (sessionRun asr trimPolicy minChunkSize
           (sessionRun asr trimPolicy minChunkSize st es1).1 es2).2) := by
  induction es1 generalizing st with
  | nil => simp [sessionRun]
  | cons e es ih =>
    simp only [List.cons_append, sessionRun, List.append_eq]
    rw [ih]
    simp [List.append_assoc]

theorem process_iter_committed_mono (asr : List ℚ → Except String (List Word))
    (trimPolicy : EngineState → Nat) (minChunkSize : ℚ) (st st2 : EngineState)
    (t : Transcription)
    (h : process_iter asr trimPolicy minChunkSize st = .ok (st2, t)) :
    ∃ ws, st2.committed = st.committed ++ ws := by
  unfold process_iter at h
  split at h
  · simp only [Except.ok.injEq, Prod.mk.injEq] at h
    exact ⟨[], by rw [← h.1]; simp⟩
  · cases ha : asr st.audio with
    | error e => rw [ha] at h; exact Except.noConfusion h
    | ok words =>
      rw [ha] at h
      simp only [Except.ok.injEq, Prod.mk.injEq] at h
      refine ⟨(hyp_update st.hypBuf words).1.map (shiftWord st.timeOffset), ?_⟩
      rw [← h.1]

theorem sessionStep_committed_mono (asr : List ℚ → Except String (List Word))
    (trimPolicy : EngineState → Nat) (minChunkSize : ℚ) (st : EngineState)
    (e : SessionEvent) :
    ∃ ws, (sessionStep asr trimPolicy minChunkSize st e).1.committed =
      st.committed ++ ws := by
  cases e with
  | insert c => exact ⟨[], by simp [sessionStep, insert_audio_chunk]⟩
  | iter =>
    simp only [sessionStep]
    cases hp : process_iter asr trimPolicy minChunkSize st with
    | error e => exact ⟨[], by simp⟩
    | ok pr =>
      obtain ⟨st2, t⟩ := pr
      obtain ⟨ws, hw⟩ :=
        process_iter_committed_mono asr trimPolicy minChunkSize st st2 t hp
      exact ⟨ws, by simpa using hw⟩

theorem sessionRun_committed_mono (asr : List ℚ → Except String (List Word))
    (trimPolicy : EngineState → Nat) (minChunkSize : ℚ) (st : EngineState)
    (es : List SessionEvent) :
    ∃ ws, (sessionRun asr trimPolicy minChunkSize st es).1.committed =
      st.committed ++ ws := by
  induction es generalizing st with
  | nil => exact ⟨[], by simp [sessionRun]⟩
  | cons e es ih =>
    simp only [sessionRun]
    obtain ⟨ws1, h1⟩ := sessionStep_committed_mono asr trimPolicy minChunkSize st e
    obtain ⟨ws2, h2⟩ := ih (sessionStep asr trimPolicy minChunkSize st e).1
    exact ⟨ws1 ++ ws2, by rw [h2, h1, List.append_assoc]⟩

/-- C1: over any session — any interleaving of audio insertions and
`process_iter` calls, any ASR backend behavior, any trimming policy —
the list of non-empty transcription texts returned so far is a prefix
of that list after any later calls, the concatenated confirmed text is
a prefix of the later concatenation, and the committed transcript only
ever grows by appending: confirmed output is never altered, re-emitted
or withdrawn. -/
theorem process_iter_monotonic_commitment (asr : List ℚ → Except String (List Word))
    (trimPolicy : EngineState → Nat) (minChunkSize : ℚ) (st : EngineState)
    (es1 es2 : List SessionEvent) :
    (∃ more, (sessionRun asr trimPolicy minChunkSize st (es1 ++ es2)).2 =
      (sessionRun asr trimPolicy minChunkSize st es1).2 ++ more) ∧
    (∃ rest, concatTexts (sessionRun asr trimPolicy minChunkSize st (es1 ++ es2)).2 =
      concatTexts (sessionRun asr trimPolicy minChunkSize st es1).2 ++ rest) ∧
    (∃ ws, (sessionRun asr trimPolicy minChunkSize st (es1 ++ es2)).1.committed =
      (sessionRun asr trimPolicy minChunkSize st es1).1.committed ++ ws) := by
  have hA := sessionRun_append asr trimPolicy minChunkSize st es1 es2
  refine ⟨⟨(sessionRun asr trimPolicy minChunkSize
      (sessionRun asr trimPolicy minChunkSize st es1).1 es2).2, ?_⟩,
    ⟨concatTexts (sessionRun asr trimPolicy minChunkSize
      (sessionRun asr trimPolicy minChunkSize st es1).1 es2).2, ?_⟩, ?_⟩
  · rw [hA]
  · rw [hA]
    exact concatTexts_append _ _
  · obtain ⟨ws, hw⟩ := sessionRun_committed_mono asr trimPolicy minChunkSize
      (sessionRun asr trimPolicy minChunkSize st es1).1 es2
    refine ⟨ws, ?_⟩
    rw [hA]
    exact hw

/-- C4: when the ASR backend fails during a `process_iter` call with
enough buffered audio, the error is the result of that call alone —
there is no internal retry — and the audio buffer, time offset,
hypothesis buffer and committed transcript are all left exactly as
they were before the call. -/
theorem process_iter_backend_failure (asr : List ℚ → Except String (List Word))
    (trimPolicy : EngineState → Nat) (minChunkSize : ℚ) (st : EngineState)
    (e : String)
    (hlen : ¬ ((st.audio.length : ℚ) / (SAMPLE_RATE : ℚ) < minChunkSize))
    (herr : asr st.audio = .error e) :
    process_iter asr trimPolicy minChunkSize st = .error e ∧
    sessionStep asr trimPolicy minChunkSize st .iter = (st, []) := by
  have hp : process_iter asr trimPolicy minChunkSize st = .error e := by
    unfold process_iter
    rw [if_neg hlen, herr]
  exact ⟨hp, by simp [sessionStep, hp]⟩

/-- C4 witness: a concrete failing backend on a concrete state with
one buffered sample and a zero minimum chunk size. -/
theorem process_iter_backend_failure_witness :
    process_iter (fun _ => .error ("decode failed")) (fun _ => 0) 0
      { audio := [0], timeOffset := 0, hypBuf := [], committed := [] } =
      .error ("decode failed") ∧
    sessionStep (fun _ => .error ("decode failed")) (fun _ => 0) 0
      { audio := [0], timeOffset := 0, hypBuf := [], committed := [] } .iter =
      ({ audio := [0], timeOffset := 0, hypBuf := [], committed := [] }, []) :=
  process_iter_backend_failure (fun _ => .error ("decode failed")) (fun _ => 0) 0
    { audio := [0], timeOffset := 0, hypBuf := [], committed := [] }
    ("decode failed") (by norm_num [SAMPLE_RATE]) rfl

/-- C5: when the buffered audio duration is below the configured
minimum chunk size, `process_iter` returns the unchanged state with an
empty transcription, and the result does not depend on the ASR backend
or the trimming policy at all — no decode is invoked. -/
theorem process_iter_subthreshold_noop (asr asr2 : List ℚ → Except String (List Word))
    (trimPolicy trimPolicy2 : EngineState → Nat) (minChunkSize : ℚ)
    (st : EngineState)
    (hlen : (st.audio.length : ℚ) / (SAMPLE_RATE : ℚ) < minChunkSize) :
    process_iter asr trimPolicy minChunkSize st = .ok (st, emptyTranscription) ∧
    process_iter asr2 trimPolicy2 minChunkSize st =
      process_iter asr trimPolicy minChunkSize st ∧
    sessionStep asr trimPolicy minChunkSize st .iter = (st, []) := by
  have h1 : process_iter asr trimPolicy minChunkSize st =
      .ok (st, emptyTranscription) := by
    unfold process_iter
    rw [if_pos hlen]
  have h2 : process_iter asr2 trimPolicy2 minChunkSize st =
      .ok (st, emptyTranscription) := by
    unfold process_iter
    rw [if_pos hlen]
  exact ⟨h1, h2.trans h1.symm, by simp [sessionStep, h1, emptyTranscription]⟩

/-- C5 witness: with an empty audio buffer and a one-second minimum
chunk size, two arbitrarily different backends and trimming policies
give the same empty no-op result. -/
theorem process_iter_subthreshold_noop_witness :
    process_iter (fun _ => .error ("decode failed")) (fun _ => 0) 1
      { audio := [], timeOffset := 0, hypBuf := [], committed := [] } =
      .ok ({ audio := [], timeOffset := 0, hypBuf := [], committed := [] },
        emptyTranscription) ∧
    process_iter (fun _ => .ok []) (fun _ => 5) 1
      { audio := [], timeOffset := 0, hypBuf := [], committed := [] } =
      process_iter (fun _ => .error ("decode failed")) (fun _ => 0) 1
        { audio := [], timeOffset := 0, hypBuf := [], committed := [] } ∧
    sessionStep (fun _ => .error ("decode failed")) (fun _ => 0) 1
      { audio := [], timeOffset := 0, hypBuf := [], committed := [] } .iter =
      ({ audio := [], timeOffset := 0, hypBuf := [], committed := [] }, []) :=
  process_iter_subthreshold_noop (fun _ => .error ("decode failed"))
    (fun _ => .ok []) (fun _ => 0) (fun _ => 5) 1
    { audio := [], timeOffset := 0, hypBuf := [], committed := [] }
    (by norm_num [SAMPLE_RATE])
